import Mathlib

/-
Shallow embedding of src/poker_parser.go (package main).

The program reads a CSV file, drops the header row, filters out records
containing personal data ("Your hand" substring), and writes the rest
back as CSV. Go strings are modelled as Lean String values viewed as
character sequences; Go library calls at the boundary (ioutil.ReadFile,
encoding/csv reading, time.Parse) are modelled as explicit function
parameters, while the repository's own logic is translated line by line.
A Go panic (index out of range, slice bounds, time parse failure) is
modelled by the PanicOr type.
-/

namespace PokerParser

/-- Outcome of a Go computation that may panic: either a panic with a
message, or a normal value. -/
inductive PanicOr (α : Type) where
  | panic : String → PanicOr α
  | ok : α → PanicOr α
deriving DecidableEq, Repr

/-- Model of Go strings.Split with a one-character separator, on the
character list: split around each occurrence of the separator, keeping
empty segments (Go strings.Split semantics). -/
def splitOnChar (c : Char) : List Char → List (List Char)
  | [] => [[]]
  | a :: rest =>
    let r := splitOnChar c rest
    if a = c then [] :: r
    else
      match r with
      | [] => [[a]]
      | h :: t => (a :: h) :: t

/-- Go strings.Split(s, sep) for a single-character sep, on String. -/
def goSplit (s : String) (c : Char) : List String :=
  (splitOnChar c s.toList).map String.mk

/-- Model of Go strings.Contains(s, sub): sub occurs as a contiguous
substring of s. -/
def goContains (s sub : String) : Bool :=
  s.toList.tails.any (fun t => sub.toList.isPrefixOf t)

/-- Model of Go strings.Trim(s, cutset): remove all leading and trailing
characters that are members of cutset. -/
def goTrim (s cutset : String) : String :=
  String.mk (((s.toList.dropWhile (fun ch => cutset.toList.contains ch)).reverse.dropWhile
    (fun ch => cutset.toList.contains ch)).reverse)

/-- Go: type stringcell string (the only Cell implementation). -/
structure stringcell where
  val : String
deriving DecidableEq, Repr

/-- Go: func (s stringcell) String() string. -/
def stringcell.string (s : stringcell) : String :=
  s.val

/-- Go: personalDataKeys := []string{"Your hand"} (local to
stringcell.ContainsPersonalData). -/
def personalDataKeys : List String :=
  ["Your hand"]

/-- Go: func (s stringcell) ContainsPersonalData() bool — loop over
personalDataKeys returning true on the first key contained in s. -/
def stringcell.ContainsPersonalData (s : stringcell) : Bool :=
  personalDataKeys.any (fun key => goContains s.string key)

/-- Go: type genericrecord struct { cells []Cell } (the only Record
implementation; every cell is a stringcell). -/
structure genericrecord where
  cells : List stringcell
deriving DecidableEq, Repr

/-- Go: func (g *genericrecord) Cells() []Cell. -/
def genericrecord.Cells (g : genericrecord) : List stringcell :=
  g.cells

/-- Go: func (g *genericrecord) Raw() []string — append each cell's
String() in order. -/
def genericrecord.Raw (g : genericrecord) : List String :=
  g.cells.map stringcell.string

/-- Go: func (g *genericrecord) ContainsPersonalData() bool — loop over
cells, return true on the first cell reporting personal data. -/
def genericrecord.ContainsPersonalData (g : genericrecord) : Bool :=
  g.cells.any stringcell.ContainsPersonalData

/-- Go: func (g *genericrecord) Timestamp() time.Time — reads
Cells()[1].String() (panicking when out of range), parses it with
time.Parse(time.RFC3339, s) and panics on a parse error. The external
time.Parse call is the parameter parse: none models a parse error. -/
def genericrecord.Timestamp {α : Type} (parse : String → Option α)
    (g : genericrecord) : PanicOr α :=
  match g.cells.get? 1 with
  | none => .panic "runtime error: index out of range"
  | some c =>
    match parse c.string with
    | none => .panic "time parse error"
    | some t => .ok t

/-- Go: func (g *genericrecord) Actor() string — split Cells()[0] on "@",
take segment 0, trim double quotes, then trim spaces. Panics when there
is no cell 0. -/
def genericrecord.Actor (g : genericrecord) : PanicOr String :=
  match g.cells.get? 0 with
  | none => .panic "runtime error: index out of range"
  | some c =>
    let cell := (goSplit c.string '@').headD ""
    let cell := goTrim cell "\""
    .ok (goTrim cell " ")

/-- Go: func (g *genericrecord) Action() string — split Cells()[0] on the
double-quote character and take split[len(split)-1]. Panics when there is
no cell 0. -/
def genericrecord.Action (g : genericrecord) : PanicOr String :=
  match g.cells.get? 0 with
  | none => .panic "runtime error: index out of range"
  | some c =>
    let split := goSplit c.string '"'
    .ok (split.getLastD "")

/-- Go: func NewRecord(records []string) Record — one stringcell per
field, in order. -/
def NewRecord (records : List String) : genericrecord :=
  { cells := records.map (fun cell => stringcell.mk cell) }

/-- Go: func (r recordio) ReadCSV(filename string) ([]Record, error).
readFile models ioutil.ReadFile and csvReadAll models
csv.NewReader(...).ReadAll(); both are external calls whose outcome the
function branches on. After both succeed the code iterates over
rawRecords[1:], which in Go panics when rawRecords is empty. -/
def ReadCSV (readFile : String → Except String String)
    (csvReadAll : String → Except String (List (List String)))
    (filename : String) : PanicOr (Except String (List genericrecord)) :=
  match readFile filename with
  | .error err => .ok (.error err)
  | .ok data =>
    match csvReadAll data with
    | .error err => .ok (.error err)
    | .ok [] => .panic "runtime error: slice bounds out of range [1:0]"
    | .ok (_ :: rest) => .ok (.ok (rest.map NewRecord))

/-- Model of encoding/csv fieldNeedsQuotes with Comma = the default comma:
empty fields need none; the literal backslash-dot does; any comma, quote,
CR or LF does; a leading space character does. -/
def fieldNeedsQuotes (field : String) : Bool :=
  if field = "" then false
  else if field = "\\." then true
  else if field.toList.any (fun ch => ch = '\n' || ch = '\r' || ch = '"' || ch = ',') then true
  else
    match field.toList with
    | [] => false
    | ch :: _ => ch.isWhitespace

/-- encoding/csv quoted-field escaping with UseCRLF = false: a double
quote becomes two double quotes; CR and LF pass through unchanged. -/
def escapeQuotes : List Char → List Char
  | [] => []
  | ch :: rest =>
    if ch = '"' then '"' :: '"' :: escapeQuotes rest
    else ch :: escapeQuotes rest

/-- encoding/csv serialization of one field: quoted (with escaping) when
fieldNeedsQuotes holds, verbatim otherwise. -/
def encodeField (field : String) : String :=
  if fieldNeedsQuotes field then
    "\"" ++ String.mk (escapeQuotes field.toList) ++ "\""
  else field

/-- State of the bufio.Writer wrapped around the bytes.Buffer inside
csv.NewWriter: flushed is what has reached the bytes.Buffer, pending is
what still sits in the 4096-byte bufio buffer. -/
structure BufWriter where
  flushed : String
  pending : String
deriving DecidableEq, Repr

/-- bufio defaultBufSize. -/
def defaultBufSize : Nat := 4096

/-- Model of bufio.Writer.Write: data fitting in the buffer is retained;
otherwise the buffer is filled and flushed, and an oversized remainder is
written through directly. -/
def bufWrite (b : BufWriter) (p : String) : BufWriter :=
  if b.pending.length + p.length ≤ defaultBufSize then
    { b with pending := b.pending ++ p }
  else if b.pending.length = 0 then
    { b with flushed := b.flushed ++ p }
  else
    let avail := defaultBufSize - b.pending.length
    let p1 := String.mk (p.toList.take avail)
    let p2 := String.mk (p.toList.drop avail)
    if p2.length ≤ defaultBufSize then
      { flushed := b.flushed ++ b.pending ++ p1, pending := p2 }
    else
      { flushed := b.flushed ++ b.pending ++ p1 ++ p2, pending := "" }

/-- encoding/csv Writer.Write field loop: a comma before every field but
the first, then the serialized field, all through the bufio writer. -/
def csvWriteFields : BufWriter → List String → Nat → BufWriter
  | b, [], _ => b
  | b, field :: rest, n =>
    let b := if n > 0 then bufWrite b "," else b
    let b := bufWrite b (encodeField field)
    csvWriteFields b rest (n + 1)

/-- encoding/csv Writer.Write of one record with UseCRLF = false: the
fields, then a line feed. -/
def csvWriteRow (b : BufWriter) (fields : List String) : BufWriter :=
  bufWrite (csvWriteFields b fields 0) "\n"

/-- Go: func (r recordio) WriteCSV — writes each record's Raw() through
the csv writer, then calls ioutil.WriteFile(filename, buffer.Bytes(), 775).
writer.Flush() is never called, so buffer.Bytes() holds only what bufio
flushed on overflow. This definition is those bytes. -/
def WriteCSVBytes (records : List genericrecord) : String :=
  (records.foldl (fun b record => csvWriteRow b record.Raw) ⟨"", ""⟩).flushed

/-- The filesystem after WriteCSV: ioutil.WriteFile truncates and replaces
the target path's content with WriteCSVBytes records. -/
def WriteCSV (fs : String → Option String) (filename : String)
    (records : List genericrecord) : String → Option String :=
  fun p => if p = filename then some (WriteCSVBytes records) else fs p

/-- Go main Action sanitize loop: skip records containing personal data,
append the rest in order. -/
def sanitizeLoop (records : List genericrecord) : List genericrecord :=
  records.foldl
    (fun acc record =>
      if record.ContainsPersonalData then acc else acc ++ [record]) []

/-- What the Action function did to the output file: nothing, or wrote
the given bytes at the given path. -/
inductive WriteEffect where
  | noWrite : WriteEffect
  | wrote : String → String → WriteEffect
deriving DecidableEq, Repr

/-- Go main Action func: ReadCSV, propagate its error; when zero records
were produced, log and return nil without writing; otherwise filter out
personal-data records and WriteCSV the remainder to the output path. -/
def mainAction (readFile : String → Except String String)
    (csvReadAll : String → Except String (List (List String)))
    (file output : String) : PanicOr (WriteEffect × Except String Unit) :=
  match ReadCSV readFile csvReadAll file with
  | .panic msg => .panic msg
  | .ok (.error err) => .ok (.noWrite, .error err)
  | .ok (.ok records) =>
    if records.length = 0 then .ok (.noWrite, .ok ())
    else .ok (.wrote output (WriteCSVBytes (sanitizeLoop records)), .ok ())

end PokerParser

namespace PokerParser

/-- List.isPrefixOf on characters agrees with the existential prefix
decomposition. -/
theorem isPrefixOf_eq (k : List Char) : ∀ t : List Char,
    k.isPrefixOf t = true ↔ ∃ u, k ++ u = t := by
  induction k with
  | nil => intro t; simp [List.isPrefixOf]
  | cons a k ih =>
    intro t
    cases t with
    | nil => simp [List.isPrefixOf]
    | cons b t =>
      simp only [List.isPrefixOf, Bool.and_eq_true, beq_iff_eq, ih,
        List.cons_append, List.cons.injEq]
      constructor
      · rintro ⟨rfl, u, rfl⟩
        exact ⟨u, rfl, rfl⟩
      · rintro ⟨u, rfl, h⟩
        exact ⟨rfl, u, h⟩

/-- Scanning every tail for a prefix occurrence of k is exactly the
substring decomposition. -/
theorem tails_any_isPrefixOf (k : List Char) : ∀ l : List Char,
    (l.tails.any fun t => k.isPrefixOf t) = true ↔ ∃ l1 l2, l = l1 ++ k ++ l2 := by
  intro l
  induction l with
  | nil =>
    simp only [List.tails, List.any_cons, List.any_nil, Bool.or_false,
      isPrefixOf_eq, List.append_eq_nil]
    constructor
    · rintro ⟨u, rfl, rfl⟩
      exact ⟨[], [], rfl⟩
    · rintro ⟨l1, l2, h⟩
      obtain ⟨h1, h2⟩ := List.append_eq_nil.mp h.symm
      obtain ⟨h3, h4⟩ := List.append_eq_nil.mp h1
      exact ⟨[], h4, by simp [h2]⟩
  | cons a l ih =>
    simp only [List.tails, List.any_cons, Bool.or_eq_true, ih, isPrefixOf_eq]
    constructor
    · rintro (⟨u, hu⟩ | ⟨l1, l2, rfl⟩)
      · exact ⟨[], u, by simp [hu]⟩
      · exact ⟨a :: l1, l2, by simp⟩
    · rintro ⟨l1, l2, h⟩
      cases l1 with
      | nil =>
        left
        exact ⟨l2, by simpa using h.symm⟩
      | cons b l1 =>
        right
        obtain ⟨rfl, hl⟩ : a = b ∧ l = l1 ++ k ++ l2 := by simpa using h
        exact ⟨l1, l2, hl⟩

/-- C7: for every string s, Cell(s).ContainsPersonalData() is total and
returns true iff s contains "Your hand" as a case-sensitive substring of
the raw value; in particular it returns false on the empty string. -/
theorem stringcell_ContainsPersonalData_substring :
    (∀ s : String, stringcell.ContainsPersonalData ⟨s⟩ = true ↔
      ∃ l1 l2, s.toList = l1 ++ "Your hand".toList ++ l2) ∧
    stringcell.ContainsPersonalData ⟨""⟩ = false := by
  constructor
  · intro s
    have h := tails_any_isPrefixOf ("Your hand".toList) s.toList
    simpa [stringcell.ContainsPersonalData, personalDataKeys, goContains,
      stringcell.string] using h
  · rfl

/-- C8: a record reports personal data iff some cell at some index does;
the short-circuiting loop is observationally the existential. -/
theorem genericrecord_ContainsPersonalData_iff (g : genericrecord) :
    g.ContainsPersonalData = true ↔
      ∃ i : Nat, ∃ h : i < g.cells.length,
        (g.cells.get ⟨i, h⟩).ContainsPersonalData = true := by
  simp only [genericrecord.ContainsPersonalData, List.any_eq_true]
  constructor
  · rintro ⟨c, hc, hp⟩
    obtain ⟨i, hi⟩ := List.mem_iff_get.mp hc
    exact ⟨i.1, i.2, by rw [hi]; exact hp⟩
  · rintro ⟨i, h, hp⟩
    exact ⟨g.cells.get ⟨i, h⟩, List.get_mem _ _ _, hp⟩

/-- The sanitize fold with any starting accumulator appends exactly the
kept-order filter of the remaining records. -/
theorem foldl_sanitize (q : genericrecord → Bool) :
    ∀ (l acc : List genericrecord),
      l.foldl (fun a x => if q x then a else a ++ [x]) acc =
        acc ++ l.filter (fun x => !q x) := by
  intro l
  induction l with
  | nil => intro acc; simp
  | cons x l ih =>
    intro acc
    by_cases h : q x = true
    · simp [List.foldl_cons, List.filter_cons, h, ih]
    · simp [List.foldl_cons, List.filter_cons, h, ih]

/-- C2: the sequence the Action func forwards to WriteCSV is exactly the
order-preserving subsequence of records without personal data. -/
theorem sanitizeLoop_eq_filter (records : List genericrecord) :
    sanitizeLoop records = records.filter (fun r => !r.ContainsPersonalData) := by
  simpa using foldl_sanitize genericrecord.ContainsPersonalData records []

/-- C6: constructing a Record from raw fields and reading Raw() back is
the identity on the field list. -/
theorem Raw_NewRecord (records : List String) : (NewRecord records).Raw = records := by
  induction records with
  | nil => rfl
  | cons a l ih =>
    simp only [NewRecord, genericrecord.Raw, List.map_cons] at ih ⊢
    rw [ih]
    rfl

end PokerParser

namespace PokerParser

/-- C1: WriteCSV never flushes the csv writer, so for a nonempty record
list whose serialized form fits in the 4096-byte bufio buffer the bytes
handed to ioutil.WriteFile are empty — the written file does not contain
the serialized rows the spec promises. -/
theorem WriteCSVBytes_unflushed_empty :
    WriteCSVBytes [NewRecord ["a"]] = "" ∧
      [NewRecord ["a"]] ≠ ([] : List genericrecord) ∧
      csvWriteRow ⟨"", ""⟩ (NewRecord ["a"]).Raw ≠ (⟨"", ""⟩ : BufWriter) := by
  refine ⟨by decide, by decide, by decide⟩

/-- C3 counterexample: on the spec's own example cell the Action()
derivation does not return "raise" — the cell ends in a double quote, so
the last split segment is empty. -/
theorem Action_spec_example_ne_raise :
    genericrecord.Action (NewRecord ["  bob@example.com \"raise\""]) ≠
      PanicOr.ok "raise" := by decide

/-- C3 amended: on the record whose single cell is the spec's example
string, Actor() returns "bob" and Action() returns the empty string. -/
theorem Actor_Action_spec_example :
    genericrecord.Actor (NewRecord ["  bob@example.com \"raise\""]) = PanicOr.ok "bob" ∧
    genericrecord.Action (NewRecord ["  bob@example.com \"raise\""]) = PanicOr.ok "" := by
  exact ⟨by decide, by decide⟩

/-- C4: with at least two cells, Timestamp() returns exactly the value the
RFC-3339 parser produces on Cells()[1], and it panics (models the fatal
process-terminating failure) precisely when the parser rejects the text —
never a silently wrong value. -/
theorem Timestamp_parse_faithful {α : Type} (parse : String → Option α)
    (g : genericrecord) (h : 1 < g.cells.length) :
    (∀ t : α, g.Timestamp parse = PanicOr.ok t ↔
      parse (g.cells.get ⟨1, h⟩).string = some t) ∧
    (parse (g.cells.get ⟨1, h⟩).string = none →
      g.Timestamp parse = PanicOr.panic "time parse error") := by
  have hg : g.cells.get? 1 = some (g.cells.get ⟨1, h⟩) := List.get?_eq_get h
  simp only [genericrecord.Timestamp, hg]
  cases hp : parse (g.cells.get ⟨1, h⟩).string with
  | none => simp
  | some t0 => simp

/-- Witness for C4 at a concrete record and parser. -/
theorem Timestamp_parse_faithful_witness :
    (NewRecord ["a", "t1"]).Timestamp
        (fun s => if s = "t1" then some 7 else none) = PanicOr.ok 7 :=
  ((Timestamp_parse_faithful (fun s => if s = "t1" then some 7 else none)
      (NewRecord ["a", "t1"]) (by decide)).1 7).mpr (by decide)

/-- C5: when the file reads successfully and parses to a header row
followed by rest, ReadCSV returns one Record per remaining row, verbatim
and in order, header discarded; a read failure or a parse failure is
returned as an error. -/
theorem ReadCSV_drops_header (readFile : String → Except String String)
    (csvReadAll : String → Except String (List (List String)))
    (filename : String) :
    (∀ data header rest, readFile filename = .ok data →
        csvReadAll data = .ok (header :: rest) →
        ReadCSV readFile csvReadAll filename = .ok (.ok (rest.map NewRecord))) ∧
    (∀ err, readFile filename = .error err →
        ReadCSV readFile csvReadAll filename = .ok (.error err)) ∧
    (∀ data err, readFile filename = .ok data → csvReadAll data = .error err →
        ReadCSV readFile csvReadAll filename = .ok (.error err)) := by
  refine ⟨?_, ?_, ?_⟩
  · intro data header rest h1 h2
    simp [ReadCSV, h1, h2]
  · intro err h1
    simp [ReadCSV, h1]
  · intro data err h1 h2
    simp [ReadCSV, h1, h2]

/-- Witness for C5 at a concrete file and parse outcome. -/
theorem ReadCSV_drops_header_witness :
    ReadCSV (fun _ => Except.ok "D") (fun _ => Except.ok [["h"], ["x", "y"]]) "p" =
      PanicOr.ok (Except.ok [NewRecord ["x", "y"]]) :=
  (ReadCSV_drops_header (fun _ => Except.ok "D")
      (fun _ => Except.ok [["h"], ["x", "y"]]) "p").1 "D" ["h"] [["x", "y"]] rfl rfl

/-- C9: when reading produced zero records, the Action func returns
success without invoking WriteCSV — no output file is touched. -/
theorem mainAction_empty_no_write (readFile : String → Except String String)
    (csvReadAll : String → Except String (List (List String)))
    (file output : String)
    (h : ReadCSV readFile csvReadAll file = PanicOr.ok (Except.ok [])) :
    mainAction readFile csvReadAll file output =
      PanicOr.ok (WriteEffect.noWrite, Except.ok ()) := by
  simp [mainAction, h]

/-- Witness for C9: a file holding only the header row reads to zero
records and triggers the no-write branch. -/
theorem mainAction_empty_no_write_witness :
    mainAction (fun _ => Except.ok "h") (fun _ => Except.ok [["h"]]) "f" "o" =
      PanicOr.ok (WriteEffect.noWrite, Except.ok ()) :=
  mainAction_empty_no_write (fun _ => Except.ok "h") (fun _ => Except.ok [["h"]])
    "f" "o" rfl

/-- C10: when the content parses to zero CSV rows, ReadCSV neither errors
nor returns an empty sequence: slicing rawRecords from index one panics
with a slice-bounds fault. -/
theorem ReadCSV_panics_on_zero_rows (readFile : String → Except String String)
    (csvReadAll : String → Except String (List (List String)))
    (filename data : String)
    (h1 : readFile filename = Except.ok data)
    (h2 : csvReadAll data = Except.ok []) :
    ReadCSV readFile csvReadAll filename =
      PanicOr.panic "runtime error: slice bounds out of range [1:0]" := by
  simp [ReadCSV, h1, h2]

/-- Witness for C10: an empty file parses to zero rows and faults. -/
theorem ReadCSV_panics_on_zero_rows_witness :
    ReadCSV (fun _ => Except.ok "") (fun _ => Except.ok []) "f" =
      PanicOr.panic "runtime error: slice bounds out of range [1:0]" :=
  ReadCSV_panics_on_zero_rows (fun _ => Except.ok "") (fun _ => Except.ok [])
    "f" "" rfl rfl

end PokerParser
